import Mathlib

/-!
Verification of the f2py CLI front-end (numpy/f2py: f2pyarg.py, service.py,
utils.py) against its natural-language specification.  The Python functions
are shallowly embedded as executable Lean definitions; filesystem reads are
passed in as explicit arguments, filesystem writes and process exits are
reified as data.
-/

namespace F2pySpec

/-! ### Basic string helpers (models of the Python primitives used)

Python's `str` operations are modelled on `List Char` so that every
definition is structurally recursive and kernel-reducible. -/

/-- Model of `needle` being a prefix of `hay` (used for substring tests). -/
def startsWithChars : List Char → List Char → Bool
  | [], _ => true
  | _ :: _, [] => false
  | p :: ps, c :: cs => p == c && startsWithChars ps cs

/-- Model of Python's `needle in hay` substring test. -/
def containsChars (needle : List Char) : List Char → Bool
  | [] => needle.isEmpty
  | c :: t => startsWithChars needle (c :: t) || containsChars needle t

/-- Model of Python's `s.endswith(p)`. -/
def endsWithStr (s p : String) : Bool :=
  startsWithChars p.toList.reverse s.toList.reverse

/-- Model of Python's `s.split(sep)` for a single-character separator. -/
def splitOnChar (sep : Char) : List Char → List (List Char)
  | [] => [[]]
  | c :: t =>
    let r := splitOnChar sep t
    if c == sep then [] :: r else (c :: r.headD []) :: r.tail

/-! ### `pathlib.PurePath` name / suffix / stem

CPython computes `suffix`/`stem` from the final path component `name` by
locating the last dot `i` and checking `0 < i < len(name) - 1`. -/

/-- Index of the last `'.'` in a character list (Python `name.rfind('.')`,
as an `Option` instead of `-1`). -/
def rfindDot : List Char → Option Nat
  | [] => none
  | c :: t =>
    match rfindDot t with
    | some i => some (i + 1)
    | none => if c == '.' then some 0 else none

/-- `PurePath(f).name`: the final `/`-separated component. -/
def pathName (f : String) : String :=
  ⟨(splitOnChar '/' f.toList).getLastD f.toList⟩

/-- `PurePath(f).suffix`: the extension of the final component, including
the dot; empty when the last dot is leading, trailing or absent. -/
def pathSuffix (f : String) : String :=
  let name := (pathName f).toList
  match rfindDot name with
  | some i => if 0 < i && i < name.length - 1 then ⟨name.drop i⟩ else ""
  | none => ""

/-- `PurePath(f).stem`: the final component without its suffix. -/
def pathStem (f : String) : String :=
  let name := (pathName f).toList
  match rfindDot name with
  | some i => if 0 < i && i < name.length - 1 then ⟨name.take i⟩ else ⟨name⟩
  | none => ⟨name⟩

/-! ### FileClassifier: `service.segregate_files` -/

def f77_ext : List String := [".f", ".for", ".ftn", ".f77"]
def f90_ext : List String := [".f90", ".f95", ".f03", ".f08"]
def pyf_ext : List String := [".pyf", ".src"]
def out_ext : List String := [".o", ".out", ".so", ".a"]

/-- The five output buckets of `segregate_files`. -/
structure FileSet where
  f77_files : List String
  f90_files : List String
  pyf_files : List String
  out_files : List String
  other_files : List String
deriving Repr, DecidableEq

/-- `service.segregate_files`: classify each file by `PurePath(f).suffix`.
The branch order (f77, f90, out, pyf, other) and the inner `.src` guard
`ext == '.src' and stem.endswith('.pyf') or ext != '.src'` follow the
source; note the pyf branch has no `else`, so a `.src` file whose stem does
not end in `.pyf` is appended to no bucket. -/
def segregate_files : List String → FileSet
  | [] => ⟨[], [], [], [], []⟩
  | f :: fs =>
    let r := segregate_files fs
    let ext := pathSuffix f
    if f77_ext.contains ext then { r with f77_files := f :: r.f77_files }
    else if f90_ext.contains ext then { r with f90_files := f :: r.f90_files }
    else if out_ext.contains ext then { r with out_files := f :: r.out_files }
    else if pyf_ext.contains ext then
      if (ext == ".src" && endsWithStr (pathStem f) ".pyf") || ext != ".src" then
        { r with pyf_files := f :: r.pyf_files }
      else r
    else { r with other_files := f :: r.other_files }

/-- The files that `segregate_files` silently appends to no bucket:
`.src` files whose stem does not end in `.pyf`. -/
def isDroppedSrc (f : String) : Bool :=
  pathSuffix f == ".src" && !(endsWithStr (pathStem f) ".pyf")

example : pathSuffix "bar.src" = ".src" := by decide
example : pathStem "foo.pyf.src" = "foo.pyf" := by decide
example : segregate_files ["bar.src"] = ⟨[], [], [], [], []⟩ := by decide
example : segregate_files ["foo.pyf.src", "baz.f90"] =
    ⟨[], ["baz.f90"], ["foo.pyf.src"], [], []⟩ := by decide

/-- Multiset of the five buckets of a `FileSet`, for conservation statements. -/
def FileSet.toMultiset (r : FileSet) : Multiset String :=
  ↑r.f77_files + ↑r.f90_files + ↑r.pyf_files + ↑r.out_files + ↑r.other_files

lemma isDroppedSrc_false_of_mem_exts (exts : List String) {f : String}
    (hne : exts.contains ".src" = false) (h : exts.contains (pathSuffix f) = true) :
    isDroppedSrc f = false := by
  unfold isDroppedSrc
  cases hs : (pathSuffix f == ".src") with
  | false => simp [hs]
  | true =>
    have hsx : pathSuffix f = ".src" := eq_of_beq hs
    rw [hsx] at h
    rw [h] at hne
    exact absurd hne (by simp)

lemma isDroppedSrc_false_of_pyf_cond {f : String}
    (h : ((pathSuffix f == ".src" && endsWithStr (pathStem f) ".pyf") ||
          (pathSuffix f != ".src")) = true) :
    isDroppedSrc f = false := by
  unfold isDroppedSrc
  cases hs : (pathSuffix f == ".src") <;>
    cases he : endsWithStr (pathStem f) ".pyf" <;>
      simp [hs, he, bne] at h ⊢

lemma isDroppedSrc_true_of_pyf_cond {f : String}
    (h : ((pathSuffix f == ".src" && endsWithStr (pathStem f) ".pyf") ||
          (pathSuffix f != ".src")) = false) :
    isDroppedSrc f = true := by
  unfold isDroppedSrc
  cases hs : (pathSuffix f == ".src") <;>
    cases he : endsWithStr (pathStem f) ".pyf" <;>
      simp [hs, he, bne] at h ⊢

lemma isDroppedSrc_false_of_not_pyf {f : String}
    (h : pyf_ext.contains (pathSuffix f) = false) :
    isDroppedSrc f = false := by
  unfold isDroppedSrc
  cases hs : (pathSuffix f == ".src") with
  | false => simp [hs]
  | true =>
    have hsx : pathSuffix f = ".src" := eq_of_beq hs
    rw [hsx] at h
    exact absurd h (by simp [pyf_ext])

/-- Conservation for the classifier: the multiset union of the five buckets,
plus the silently dropped non-qualifying `.src` files, is the input multiset. -/
lemma segregate_files_conservation (files : List String) :
    (files : Multiset String) =
      (segregate_files files).toMultiset + ↑(files.filter isDroppedSrc) := by
  induction files with
  | nil => simp [segregate_files, FileSet.toMultiset]
  | cons f fs ih =>
    show ((f :: fs : List String) : Multiset String) = _
    rw [segregate_files]
    cases h77 : f77_ext.contains (pathSuffix f) with
    | true =>
      have hd := isDroppedSrc_false_of_mem_exts f77_ext (by decide) h77
      simp only [h77, if_true, FileSet.toMultiset, List.filter_cons, hd,
        Bool.false_eq_true, if_false]
      simp only [← Multiset.cons_coe, Multiset.cons_add]
      rw [ih]; rfl
    | false =>
    cases h90 : f90_ext.contains (pathSuffix f) with
    | true =>
      have hd := isDroppedSrc_false_of_mem_exts f90_ext (by decide) h90
      simp only [h77, h90, Bool.false_eq_true, if_false, if_true,
        FileSet.toMultiset, List.filter_cons, hd]
      simp only [← Multiset.cons_coe, Multiset.cons_add, Multiset.add_cons]
      rw [ih]; rfl
    | false =>
    cases hout : out_ext.contains (pathSuffix f) with
    | true =>
      have hd := isDroppedSrc_false_of_mem_exts out_ext (by decide) hout
      simp only [h77, h90, hout, Bool.false_eq_true, if_false, if_true,
        FileSet.toMultiset, List.filter_cons, hd]
      simp only [← Multiset.cons_coe, Multiset.cons_add, Multiset.add_cons]
      rw [ih]; rfl
    | false =>
    cases hpyf : pyf_ext.contains (pathSuffix f) with
    | true =>
      cases hcond : ((pathSuffix f == ".src" && endsWithStr (pathStem f) ".pyf") ||
          (pathSuffix f != ".src")) with
      | true =>
        have hd := isDroppedSrc_false_of_pyf_cond hcond
        simp only [h77, h90, hout, hpyf, hcond, Bool.false_eq_true, if_false, if_true,
          FileSet.toMultiset, List.filter_cons, hd]
        simp only [← Multiset.cons_coe, Multiset.cons_add, Multiset.add_cons]
        rw [ih]; rfl
      | false =>
        have hd := isDroppedSrc_true_of_pyf_cond hcond
        simp only [h77, h90, hout, hpyf, hcond, Bool.false_eq_true, if_false, if_true,
          FileSet.toMultiset, List.filter_cons, hd]
        simp only [← Multiset.cons_coe, Multiset.cons_add, Multiset.add_cons]
        rw [ih]; rfl
    | false =>
      have hd := isDroppedSrc_false_of_not_pyf hpyf
      simp only [h77, h90, hout, hpyf, Bool.false_eq_true, if_false,
        FileSet.toMultiset, List.filter_cons, hd]
      simp only [← Multiset.cons_coe, Multiset.cons_add, Multiset.add_cons]
      rw [ih]; rfl

/-- Claim C1, counterexample: on the input `["bar.src"]` the classifier
returns five empty buckets — the multiset union of the buckets is empty, not
the input multiset, and `bar.src` does not land in the "other" bucket: it is
dropped. -/
theorem segregate_files_drops_bare_src :
    segregate_files ["bar.src"] = ⟨[], [], [], [], []⟩ ∧
    (segregate_files ["bar.src"]).toMultiset ≠ (["bar.src"] : List String) ∧
    (segregate_files ["bar.src"]).other_files = [] := by
  refine ⟨by decide, ?_, by decide⟩
  intro h
  have : ("bar.src" : String) ∈ (segregate_files ["bar.src"]).toMultiset := by
    rw [h]; simp
  revert this
  decide

/-- Claim C1, amended: the five buckets contain every input file exactly once
except the `.src` files whose stem does not end in `.pyf`, which land in no
bucket (they are silently dropped, not placed in "other"); as multisets,
buckets + dropped files = input.  Concretely, `foo.pyf.src` goes to the
signature bucket, `baz.f90` to the Fortran-90 bucket, and `bar.src` nowhere. -/
theorem segregate_files_partition_except_dropped_src :
    (∀ files : List String,
      (files : Multiset String) =
        (segregate_files files).toMultiset + ↑(files.filter isDroppedSrc)) ∧
    segregate_files ["foo.pyf.src", "bar.src", "baz.f90"] =
      ⟨[], ["baz.f90"], ["foo.pyf.src"], [], []⟩ ∧
    ["foo.pyf.src", "bar.src", "baz.f90"].filter isDroppedSrc = ["bar.src"] :=
  ⟨segregate_files_conservation, by decide, by decide⟩

/-! ### BuildDirectoryManager: `utils.open_build_dir`

`open_build_dir` is a `contextlib.contextmanager` generator whose body is

    remove_build_dir = False
    ...resolve build_dir...
    yield build_dir
    shutil.rmtree(build_dir) if remove_build_dir else None

The `yield` is not wrapped in `try/finally`.  Under Python's generator-based
context-manager protocol, when the `with`-body raises, the exception is
thrown into the generator at the `yield` point and propagates out of the
generator, so the statements after `yield` do not run.  The model takes the
outcome of the enclosed body as a parameter and records whether the `rmtree`
statement was reached. -/

/-- Whether the code enclosed by the `with` statement finished normally or
raised an exception. -/
inductive BodyOutcome
  | normal
  | raises
deriving DecidableEq, Repr

/-- The directory resolved by `open_build_dir`. -/
inductive BuildDirChoice
  | temp
  | cwd
  | given (path : String)
deriving DecidableEq, Repr

/-- Observable result of one `with open_build_dir(...)` scope. -/
structure OpenBuildDirRun where
  dir : BuildDirChoice
  remove_build_dir : Bool
  rmtree_executed : Bool
deriving DecidableEq, Repr

/-- `utils.open_build_dir`: resolve the directory, run the body, and reach
the trailing `rmtree` line only when the body completed normally (there is no
`try/finally`, so an exception skips everything after `yield`). -/
def open_build_dir_run (build_dir : Option (List String)) (compile : Bool)
    (outcome : BodyOutcome) : OpenBuildDirRun :=
  -- `if isinstance(build_dir, list): build_dir = build_dir[0] if build_dir else None`
  let bd : Option String :=
    match build_dir with
    | some l => l.head?
    | none => none
  match bd with
  | none =>
    if compile then
      -- `remove_build_dir = True; build_dir = Path(tempfile.mkdtemp())`
      { dir := .temp, remove_build_dir := true,
        rmtree_executed := outcome == .normal }
    else
      -- `build_dir = Path.cwd()`
      { dir := .cwd, remove_build_dir := false, rmtree_executed := false }
  | some d =>
    -- `build_dir = Path(build_dir).absolute()`
    { dir := .given d, remove_build_dir := false, rmtree_executed := false }

/-- Claim C2: on the raising exit path an owned (implicitly created
temporary) build directory is marked for removal but the `rmtree` line is
never reached — the directory leaks, contradicting "deleted exactly once on
every exit path".  On normal exit it is removed; user-supplied directories
and the generation-only working directory are never removed on any path. -/
theorem open_build_dir_leaks_on_raise :
    (open_build_dir_run none true .raises).remove_build_dir = true ∧
    (open_build_dir_run none true .raises).rmtree_executed = false ∧
    (open_build_dir_run none true .normal).rmtree_executed = true ∧
    (open_build_dir_run (some ["userdir"]) true .normal).rmtree_executed = false ∧
    (open_build_dir_run (some ["userdir"]) true .raises).rmtree_executed = false ∧
    (open_build_dir_run none false .normal).dir = .cwd ∧
    (open_build_dir_run none false .normal).rmtree_executed = false ∧
    (open_build_dir_run none false .raises).rmtree_executed = false := by
  decide

/-! ### Signature-file target resolution: `f2pyarg.get_signature_file`

    sign_file = None
    if(args.hint_signature):
        sign_file = build_dir / args.hint_signature[0]
        if sign_file and sign_file.is_file() and not args.overwrite_signature:
            print(f'Signature file "..." exists!!! Use --overwrite-signature to overwrite.')
            parser.exit()
    return sign_file

`argparse.ArgumentParser.exit(status=0, message=None)` defaults to exit
status 0.  A `Path` object is always truthy, so the guard reduces to the
file-existence test plus the overwrite flag.  The filesystem is passed in as
an explicit `is_regular_file` predicate; the function performs no write. -/

/-- Result of `get_signature_file`: either the process exits (with the given
status) or dispatch proceeds with the resolved target. -/
inductive SigFileResult
  | exited (status : Nat)
  | proceed (sign_file : Option String)
deriving DecidableEq, Repr

/-- `build_dir / hint` path join. -/
def joinPath (d f : String) : String := d ++ "/" ++ f

/-- `f2pyarg.get_signature_file`. -/
def get_signature_file (hint_signature : Option String)
    (overwrite_signature : Bool) (build_dir : String)
    (is_regular_file : String → Bool) : SigFileResult :=
  match hint_signature with
  | none => .proceed none
  | some h =>
    let sign_file := joinPath build_dir h
    if is_regular_file sign_file && !overwrite_signature then
      .exited 0  -- `parser.exit()`: status defaults to 0
    else .proceed (some sign_file)

/-- Claim C4, counterexample: with a hint-signature target that exists and no
overwrite flag, the run terminates via `parser.exit()` whose default status
is 0 — a success status, not a non-zero-equivalent failure. -/
theorem get_signature_file_exits_zero :
    get_signature_file (some "mod.pyf") false "bld" (fun _ => true) =
      .exited 0 := by
  decide

/-- Claim C4, amended: when a hint-signature target is given, the target (the
hint joined under the build directory) exists as a regular file, and the
overwrite flag is absent, the run prints the diagnostic and terminates
immediately with exit status 0 (success, not a non-zero failure); it performs
no write, so the existing signature file is untouched. -/
theorem get_signature_file_guard (h bd : String) (fs : String → Bool)
    (hex : fs (joinPath bd h) = true) :
    get_signature_file (some h) false bd fs = .exited 0 := by
  simp [get_signature_file, hex]

/-- Claim C4, witness for the amended theorem at a concrete input. -/
theorem get_signature_file_guard_witness :
    get_signature_file (some "mod2.pyf") false "bdir" (fun _ => true) =
      .exited 0 :=
  get_signature_file_guard "mod2.pyf" "bdir" (fun _ => true) rfl

/-! ### ArgumentSegregator: `f2pyarg.segregate_posn_args`

    funcs = {"skip:": [], "only:": []}
    mode = "file"
    files = []
    for arg in getattr(args, "Fortran Files"):
        if arg in funcs:
            mode = arg
        elif arg == ':' and mode in funcs:
            mode = "file"
        elif mode == "file":
            files.append(arg)
        else:
            funcs[mode].append(arg)
    return files, funcs['skip:'], funcs['only:']

The loop is embedded with the mode and the three accumulating buckets as
explicit arguments. -/

/-- One iteration of the `segregate_posn_args` loop as a step function over
the state `(mode, files, funcs["skip:"], funcs["only:"])`.  `arg in funcs`
tests membership in the dict keys `{"skip:", "only:"}`; the final `else`
appends to `funcs[mode]`, where `mode` is then one of the two keys. -/
def segStep : String × List String × List String × List String → String →
    String × List String × List String × List String
  | (mode, files, skip_list, only_list), arg =>
    if arg == "skip:" || arg == "only:" then
      (arg, files, skip_list, only_list)
    else if arg == ":" && (mode == "skip:" || mode == "only:") then
      ("file", files, skip_list, only_list)
    else if mode == "file" then
      (mode, files ++ [arg], skip_list, only_list)
    else if mode == "skip:" then
      (mode, files, skip_list ++ [arg], only_list)
    else
      (mode, files, skip_list, only_list ++ [arg])

/-- `f2pyarg.segregate_posn_args`: fold the loop body over the positional
tokens starting in file mode and return the three buckets. -/
def segregate_posn_args (fortran_files : List String) :
    List String × List String × List String :=
  let st := fortran_files.foldl segStep ("file", [], [], [])
  (st.2.1, st.2.2.1, st.2.2.2)

lemma bool_eq_false {b : Bool} (h : ¬ b = true) : b = false := by
  cases b
  · rfl
  · exact absurd rfl h

/-- The accumulators of the fold are pure prefixes: running with non-empty
buckets appends the run from empty buckets (the mode trajectory is the
same). -/
lemma segFold_append (toks : List String) :
    ∀ (mode : String) (fs ss os : List String),
      toks.foldl segStep (mode, fs, ss, os) =
        ((toks.foldl segStep (mode, [], [], [])).1,
         fs ++ (toks.foldl segStep (mode, [], [], [])).2.1,
         ss ++ (toks.foldl segStep (mode, [], [], [])).2.2.1,
         os ++ (toks.foldl segStep (mode, [], [], [])).2.2.2) := by
  induction toks with
  | nil => intro mode fs ss os; simp
  | cons arg rest ih =>
    intro mode fs ss os
    by_cases h1 : (arg == "skip:" || arg == "only:") = true
    · simp only [List.foldl_cons, segStep, h1, if_true]
      rw [ih arg fs ss os]
    · have h1' := bool_eq_false h1
      by_cases h2 : (arg == ":" && (mode == "skip:" || mode == "only:")) = true
      · simp only [List.foldl_cons, segStep, h1', Bool.false_eq_true, if_false]
        simp only [h2, if_true]
        rw [ih "file" fs ss os]
      · have h2' := bool_eq_false h2
        by_cases h3 : (mode == "file") = true
        · simp only [List.foldl_cons, segStep, h1', Bool.false_eq_true, if_false]
          simp only [h2', Bool.false_eq_true, if_false]
          simp only [h3, if_true]
          simp only [List.nil_append]
          rw [ih mode (fs ++ [arg]) ss os, ih mode [arg] [] []]
          simp
        · have h3' := bool_eq_false h3
          by_cases h4 : (mode == "skip:") = true
          · simp only [List.foldl_cons, segStep, h1', Bool.false_eq_true, if_false]
            simp only [h2', Bool.false_eq_true, if_false]
            simp only [h3', Bool.false_eq_true, if_false]
            simp only [h4, if_true]
            simp only [List.nil_append]
            rw [ih mode fs (ss ++ [arg]) os, ih mode [] [arg] []]
            simp
          · have h4' := bool_eq_false h4
            simp only [List.foldl_cons, segStep, h1', Bool.false_eq_true, if_false]
            simp only [h2', Bool.false_eq_true, if_false]
            simp only [h3', Bool.false_eq_true, if_false]
            simp only [h4', Bool.false_eq_true, if_false]
            simp only [List.nil_append]
            rw [ih mode fs ss (os ++ [arg]), ih mode [] [] [arg]]
            simp

/-- Conservation for the mode machine: every token either lands in exactly
one of the three buckets or is consumed as a sentinel (`skip:`, `only:`, or
a bare `:`), as a multiset identity. -/
lemma segFold_conservation (toks : List String) :
    ∀ mode : String, ∃ d : List String,
      (toks : Multiset String) =
        ↑(toks.foldl segStep (mode, [], [], [])).2.1 +
          ↑(toks.foldl segStep (mode, [], [], [])).2.2.1 +
          ↑(toks.foldl segStep (mode, [], [], [])).2.2.2 + ↑d ∧
      ∀ x ∈ d, x = "skip:" ∨ x = "only:" ∨ x = ":" := by
  induction toks with
  | nil => intro mode; exact ⟨[], by simp, by simp⟩
  | cons arg rest ih =>
    intro mode
    by_cases h1 : (arg == "skip:" || arg == "only:") = true
    · obtain ⟨d, hd, hmem⟩ := ih arg
      refine ⟨arg :: d, ?_, ?_⟩
      · simp only [List.foldl_cons, segStep, h1, if_true]
        simp only [← Multiset.cons_coe, Multiset.cons_add, Multiset.add_cons]
        rw [hd]
      · intro x hx
        rcases List.mem_cons.mp hx with hx | hx
        · rcases Bool.or_eq_true_iff.mp h1 with h | h
          · exact Or.inl (hx ▸ eq_of_beq h)
          · exact Or.inr (Or.inl (hx ▸ eq_of_beq h))
        · exact hmem x hx
    · have h1' := bool_eq_false h1
      by_cases h2 : (arg == ":" && (mode == "skip:" || mode == "only:")) = true
      · obtain ⟨d, hd, hmem⟩ := ih "file"
        refine ⟨arg :: d, ?_, ?_⟩
        · simp only [List.foldl_cons, segStep, h1', Bool.false_eq_true, if_false]
          simp only [h2, if_true]
          simp only [← Multiset.cons_coe, Multiset.cons_add, Multiset.add_cons]
          rw [hd]
        · intro x hx
          rcases List.mem_cons.mp hx with hx | hx
          · exact Or.inr (Or.inr (hx ▸ eq_of_beq (Bool.and_eq_true_iff.mp h2).1))
          · exact hmem x hx
      · have h2' := bool_eq_false h2
        obtain ⟨d, hd, hmem⟩ := ih mode
        by_cases h3 : (mode == "file") = true
        · refine ⟨d, ?_, hmem⟩
          simp only [List.foldl_cons, segStep, h1', Bool.false_eq_true, if_false]
          simp only [h2', Bool.false_eq_true, if_false]
          simp only [h3, if_true]
          simp only [List.nil_append]
          rw [segFold_append rest mode [arg] [] []]
          simp only [← Multiset.cons_coe, Multiset.cons_add, Multiset.add_cons,
            List.singleton_append, List.nil_append]
          rw [hd]
        · have h3' := bool_eq_false h3
          by_cases h4 : (mode == "skip:") = true
          · refine ⟨d, ?_, hmem⟩
            simp only [List.foldl_cons, segStep, h1', Bool.false_eq_true, if_false]
            simp only [h2', Bool.false_eq_true, if_false]
            simp only [h3', Bool.false_eq_true, if_false]
            simp only [h4, if_true]
            simp only [List.nil_append]
            rw [segFold_append rest mode [] [arg] []]
            simp only [← Multiset.cons_coe, Multiset.cons_add, Multiset.add_cons,
              List.singleton_append, List.nil_append]
            rw [hd]
          · have h4' := bool_eq_false h4
            refine ⟨d, ?_, hmem⟩
            simp only [List.foldl_cons, segStep, h1', Bool.false_eq_true, if_false]
            simp only [h2', Bool.false_eq_true, if_false]
            simp only [h3', Bool.false_eq_true, if_false]
            simp only [h4', Bool.false_eq_true, if_false]
            simp only [List.nil_append]
            rw [segFold_append rest mode [] [] [arg]]
            simp only [← Multiset.cons_coe, Multiset.cons_add, Multiset.add_cons,
              List.singleton_append, List.nil_append]
            rw [hd]

/-- Tokens without `skip:`/`only:` are consumed in file mode, each appended
to the files bucket (a bare `:` in file mode is an ordinary filename). -/
lemma segFold_no_sentinel_run (pre : List String) :
    ∀ (post fs ss os : List String),
      (∀ x ∈ pre, x ≠ "skip:" ∧ x ≠ "only:") →
      (pre ++ post).foldl segStep ("file", fs, ss, os) =
        post.foldl segStep ("file", fs ++ pre, ss, os) := by
  induction pre with
  | nil => intro post fs ss os _; simp
  | cons a t ih =>
    intro post fs ss os hpre
    have ha := hpre a (List.mem_cons_self a t)
    have h1 : (a == "skip:" || a == "only:") = false := by
      simp [ha.1, ha.2]
    have h2 : (a == ":" && (("file" : String) == "skip:" ||
        ("file" : String) == "only:")) = false := by
      simp
    simp only [List.cons_append, List.foldl_cons, segStep]
    simp only [h1, Bool.false_eq_true, if_false]
    simp only [h2, Bool.false_eq_true, if_false]
    simp only [beq_self_eq_true, if_true]
    rw [ih post (fs ++ [a]) ss os (fun x hx => hpre x (List.mem_cons_of_mem a hx))]
    simp

/-- Claim C8: the positional segregator is the described left-to-right mode
machine.  (1) Every token lands in exactly one of the three buckets unless it
is consumed as a sentinel (`skip:`/`only:` always, `:` only in skip/only
mode) — a multiset conservation identity.  (2) A prefix containing no
`skip:`/`only:` sentinel is appended wholesale to the files bucket, so
tokens before any sentinel never land in skip or only, and a `:` in file
mode is kept as an ordinary filename.  (3) A concrete run exercising every
transition. -/
theorem segregate_posn_args_mode_machine :
    (∀ toks : List String, ∃ d : List String,
      (toks : Multiset String) =
        ↑(segregate_posn_args toks).1 + ↑(segregate_posn_args toks).2.1 +
          ↑(segregate_posn_args toks).2.2 + ↑d ∧
      ∀ x ∈ d, x = "skip:" ∨ x = "only:" ∨ x = ":") ∧
    (∀ pre post : List String,
      (∀ x ∈ pre, x ≠ "skip:" ∧ x ≠ "only:") →
      segregate_posn_args (pre ++ post) =
        (pre ++ (segregate_posn_args post).1,
         (segregate_posn_args post).2.1,
         (segregate_posn_args post).2.2)) ∧
    segregate_posn_args ["a.f", ":", "skip:", "f1", "f2", ":", "b.f", "only:", "g1"] =
      (["a.f", ":", "b.f"], ["f1", "f2"], ["g1"]) := by
  refine ⟨fun toks => segFold_conservation toks "file", ?_, by decide⟩
  intro pre post hpre
  unfold segregate_posn_args
  rw [segFold_no_sentinel_run pre post [] [] [] hpre]
  simp only [List.nil_append]
  rw [segFold_append post "file" pre [] []]
  simp

/-- Claim C8, witness: the prefix clause of the theorem applied at a concrete
split of the stream. -/
theorem segregate_posn_args_mode_machine_witness :
    segregate_posn_args (["a.f"] ++ ["skip:", "f1"]) =
      (["a.f"] ++ (segregate_posn_args ["skip:", "f1"]).1,
       (segregate_posn_args ["skip:", "f1"]).2.1,
       (segregate_posn_args ["skip:", "f1"]).2.2) :=
  segregate_posn_args_mode_machine.2.1 ["a.f"] ["skip:", "f1"] (by decide)

/-! ### Paired boolean flags: `f2pyarg.BoolAction.__call__`

    setattr(namespace, self.dest, "no" not in option_string)

Each occurrence of either variant of the flag overwrites the destination;
argparse invokes the action once per occurrence, left to right. -/

/-- `BoolAction.__call__`: the new destination value ignores the current one
and is `"no" not in option_string`. -/
def bool_action_call (dest : Bool) (option_string : String) : Bool :=
  let _ := dest  -- the previous value is overwritten, not consulted
  !(containsChars "no".toList option_string.toList)

/-- The value a paired boolean flag resolves to after argparse has replayed
every matched occurrence (in supply order) over the default. -/
def resolve_bool_flag (dflt : Bool) (matched : List String) : Bool :=
  matched.foldl bool_action_call dflt

lemma resolve_bool_flag_last (occs : List String) :
    ∀ (d : Bool) (last : String), occs.getLast? = some last →
      resolve_bool_flag d occs = !(containsChars "no".toList last.toList) := by
  induction occs with
  | nil => intro d last h; simp at h
  | cons a t ih =>
    intro d last h
    cases t with
    | nil =>
      simp only [List.getLast?_singleton, Option.some.injEq] at h
      subst h
      rfl
    | cons b t2 =>
      rw [List.getLast?_cons_cons] at h
      exact ih (bool_action_call d a) last h

/-- Claim C10: a paired boolean flag resolves to true iff the last matched
option string does not contain `"no"`; in particular `--lower --no-lower`
resolves to false and `--no-lower --lower` to true, whatever the default
was. -/
theorem bool_action_last_occurrence_wins :
    (∀ (d : Bool) (occs : List String) (last : String),
      occs.getLast? = some last →
      resolve_bool_flag d occs = !(containsChars "no".toList last.toList)) ∧
    resolve_bool_flag false ["--lower", "--no-lower"] = false ∧
    resolve_bool_flag false ["--no-lower", "--lower"] = true ∧
    resolve_bool_flag true ["--lower", "--no-lower"] = false ∧
    resolve_bool_flag true ["--no-lower", "--lower"] = true :=
  ⟨fun d occs last h => resolve_bool_flag_last occs d last h,
   by decide, by decide, by decide, by decide⟩

/-- Claim C10, witness: the last-occurrence rule applied at a concrete flag
sequence. -/
theorem bool_action_last_occurrence_wins_witness :
    resolve_bool_flag false ["--no-lower", "--lower", "--no-lower"] =
      !(containsChars "no".toList "--no-lower".toList) :=
  bool_action_last_occurrence_wins.1 false ["--no-lower", "--lower", "--no-lower"]
    "--no-lower" rfl

/-! ### Macro parsing: `f2pyarg.ProcessMacros.__call__`

    for value in values:
        if('=' in value):
            items.append((value.split("=")[0], value.split("=")[1]))
        else:
            items.append((value, None))

Python's `value.split("=")` (no maxsplit) splits on every `=`; element `[1]`
is therefore the text between the first and second `=`, not everything after
the first `=`. -/

/-- Python's `s.split("=")` on characters. -/
def pySplitEq : List Char → List (List Char)
  | [] => [[]]
  | c :: t =>
    let r := pySplitEq t
    if c == '=' then [] :: r else (c :: r.headD []) :: r.tail

/-- The pair appended for a single `-D` token. -/
def processMacroValue (value : String) : String × Option String :=
  if value.toList.contains '=' then
    (⟨(pySplitEq value.toList).getD 0 []⟩, some ⟨(pySplitEq value.toList).getD 1 []⟩)
  else (value, none)

/-- `ProcessMacros.__call__`: append one parsed pair per raw token to the
accumulated destination, in encounter order. -/
def process_macros_call (items : List (String × Option String)) :
    List String → List (String × Option String)
  | [] => items
  | v :: vs => process_macros_call (items ++ [processMacroValue v]) vs

example : processMacroValue "X=a=b" = ("X", some "a") := by decide
example : processMacroValue "DEBUG" = ("DEBUG", none) := by decide
example : processMacroValue "X=1" = ("X", some "1") := by decide

lemma process_macros_call_append (vs : List String) :
    ∀ items, process_macros_call items vs = items ++ vs.map processMacroValue := by
  induction vs with
  | nil => intro items; simp [process_macros_call]
  | cons v t ih =>
    intro items
    rw [process_macros_call, ih]
    simp

lemma pySplitEq_no_eq_cons (name : List Char) (rest : List Char)
    (h : name.contains '=' = false) :
    pySplitEq (name ++ '=' :: rest) = name :: pySplitEq rest := by
  induction name with
  | nil => simp [pySplitEq]
  | cons c t ih =>
    rw [List.contains_cons] at h
    rcases Bool.or_eq_false_iff.mp h with ⟨h1, ht⟩
    have hc : (c == '=') = false := by rw [BEq.comm] at h1; exact h1
    simp only [List.cons_append, pySplitEq, List.append_eq]
    rw [ih ht]
    simp [hc]

lemma getD_zero_eq_headD (l : List (List Char)) : l.getD 0 [] = l.headD [] := by
  cases l <;> simp

lemma contains_eq_of_append (name rest : List Char) :
    (name ++ '=' :: rest).contains '=' = true := by
  induction name with
  | nil => simp [List.contains_cons]
  | cons c t ih => rw [List.cons_append, List.contains_cons, ih]; simp

lemma pySplitEq_head_takeWhile (l : List Char) :
    (pySplitEq l).getD 0 [] = l.takeWhile (fun c => c != '=') := by
  induction l with
  | nil => simp [pySplitEq, List.takeWhile]
  | cons c t ih =>
    cases hc : (c == '=') with
    | true =>
      have : c = '=' := eq_of_beq hc
      subst this
      simp [pySplitEq, List.takeWhile_cons]
    | false =>
      have hp : (c != '=') = true := by simp [bne, hc]
      simp only [pySplitEq, hc, Bool.false_eq_true, if_false,
        List.takeWhile_cons, hp, if_true, List.getD_cons_zero]
      rw [← ih, getD_zero_eq_headD]

/-- Claim C6, counterexample: the raw token `X=a=b` is parsed to
`("X", "a")` — the text between the first and second `=` — not to
`("X", "a=b")` as the claim (everything after the first `=`) requires. -/
theorem process_macros_call_splits_twice :
    process_macros_call [] ["X=a=b"] = [("X", some "a")] ∧
    process_macros_call [] ["X=a=b"] ≠ [("X", some "a=b")] := by
  constructor
  · decide
  · decide

/-- Claim C6, amended: each raw `-D` token is split on `=`; a token without
`=` yields `(name, null)`; a token `name=rest` (no `=` in `name`) yields
`(name, v)` where `v` is the prefix of `rest` up to the next `=` — i.e. the
text between the first and second `=`, anything after a second `=` being
dropped.  Multiple macros accumulate in encounter order. -/
theorem process_macros_call_spec :
    (∀ (items : List (String × Option String)) (vs : List String),
      process_macros_call items vs = items ++ vs.map processMacroValue) ∧
    (∀ v : String, v.toList.contains '=' = false →
      processMacroValue v = (v, none)) ∧
    (∀ name rest : List Char, name.contains '=' = false →
      processMacroValue ⟨name ++ '=' :: rest⟩ =
        (⟨name⟩, some ⟨rest.takeWhile (fun c => c != '=')⟩)) := by
  refine ⟨fun items vs => process_macros_call_append vs items, ?_, ?_⟩
  · intro v h
    unfold processMacroValue
    rw [h]
    simp
  · intro name rest h
    have hcontains : (name ++ '=' :: rest).contains '=' = true :=
      contains_eq_of_append name rest
    unfold processMacroValue
    have htl : (String.mk (name ++ '=' :: rest)).toList = name ++ '=' :: rest := rfl
    rw [htl, hcontains]
    simp only [if_true]
    rw [pySplitEq_no_eq_cons name rest h]
    simp only [List.getD_cons_zero, List.getD_cons_succ]
    rw [pySplitEq_head_takeWhile rest]

/-- Claim C6, witness: the amended split rule applied at the concrete token
`X=a=b`. -/
theorem process_macros_call_spec_witness :
    processMacroValue ⟨"X".toList ++ '=' :: "a=b".toList⟩ =
      ("X", some ⟨"a=b".toList.takeWhile (fun c => c != '=')⟩) :=
  process_macros_call_spec.2.2 "X".toList "a=b".toList rfl

/-! ### Module-name resolution: `service.get_f2py_modulename` and
`f2pyarg.get_module_name`

    F2PY_MODULE_NAME_MATCH = re.compile(r'\s*python\s*module\s*(?P<name>[\w_]+)', re.I).match
    F2PY_USER_MODULE_NAME_MATCH = re.compile(r'\s*python\s*module\s*(?P<name>[\w_]*?__user__[\w_]*)', re.I).match

Both patterns are anchored prefix matches; the second succeeds exactly when
the first does and the matched (maximal) word run contains `__user__`
(the lazy prefix and the trailing run consist of word characters only, so
any occurrence of `__user__` inside the run is reachable).  Files are
modelled as lists of lines; reading the file is the identity. -/

/-- Python's `\s` on ASCII (the whitespace characters re recognizes). -/
def isSpaceChar (c : Char) : Bool :=
  c == ' ' || c == '\t' || c == '\n' || c == '\r' || c == '\x0b' || c == '\x0c'

/-- A `[\w_]` character: alphanumeric or underscore. -/
def isWordChar (c : Char) : Bool :=
  c.isAlpha || c.isDigit || c == '_'

/-- Strip a literal pattern case-insensitively from the front (`re.I`). -/
def stripLiteralCI (pat : List Char) (l : List Char) : Option (List Char) :=
  match pat, l with
  | [], rest => some rest
  | _ :: _, [] => none
  | p :: ps, c :: cs => if c.toLower == p then stripLiteralCI ps cs else none

/-- The anchored match `\s*python\s*module\s*(?P<name>[\w_]+)` on one line,
returning the (greedy) name capture. -/
def matchPythonModule (line : String) : Option String :=
  match stripLiteralCI "python".toList (line.toList.dropWhile isSpaceChar) with
  | none => none
  | some l2 =>
    match stripLiteralCI "module".toList (l2.dropWhile isSpaceChar) with
    | none => none
    | some l3 =>
      let name := (l3.dropWhile isSpaceChar).takeWhile isWordChar
      if name.isEmpty then none else some ⟨name⟩

/-- Whether a matched module name carries the `__user__` marker (the
condition under which `F2PY_USER_MODULE_NAME_MATCH` also succeeds). -/
def hasUserMarker (name : String) : Bool :=
  containsChars "__user__".toList name.toList

/-- `service.get_f2py_modulename`: scan the lines of one signature file;
the first line with a `python module` declaration whose name lacks the
`__user__` marker supplies the name (user-module declarations are skipped
by `continue`). -/
def get_f2py_modulename (lines : List String) : Option String :=
  match lines with
  | [] => none
  | line :: rest =>
    match matchPythonModule line with
    | some name =>
      if hasUserMarker name then get_f2py_modulename rest else some name
    | none => get_f2py_modulename rest

/-- The loop in `get_module_name` over the signature files:
`for file in pyf_files: if name := get_f2py_modulename(file): return name`. -/
def scan_pyf_files : List (List String) → Option String
  | [] => none
  | f :: fs =>
    match get_f2py_modulename f with
    | some name => some name
    | none => scan_pyf_files fs

/-- `f2pyarg.get_module_name`: explicit `-m` wins; otherwise with `-c` the
signature files are scanned and the literal `"unititled"` is the fallback;
without `-c` the result is `None`. -/
def get_module_name (module : Option String) (c : Bool)
    (pyf_files : List (List String)) : Option String :=
  match module with
  | some m => some m
  | none =>
    if c then some ((scan_pyf_files pyf_files).getD "unititled")
    else none

/-- Specification-style reading of one line: the declared name provided it
lacks the user marker. -/
def nonUserModuleNameOfLine (line : String) : Option String :=
  match matchPythonModule line with
  | some name => if hasUserMarker name then none else some name
  | none => none

lemma get_f2py_modulename_findSome (lines : List String) :
    get_f2py_modulename lines = lines.findSome? nonUserModuleNameOfLine := by
  induction lines with
  | nil => rfl
  | cons line rest ih =>
    rw [get_f2py_modulename, List.findSome?_cons]
    unfold nonUserModuleNameOfLine
    cases hm : matchPythonModule line with
    | none => exact ih
    | some name =>
      cases hu : hasUserMarker name with
      | true => simpa [hu] using ih
      | false => simp [hu]

lemma findSome_append (f : String → Option String) (l1 l2 : List String) :
    (l1 ++ l2).findSome? f =
      match l1.findSome? f with
      | some v => some v
      | none => l2.findSome? f := by
  induction l1 with
  | nil => simp
  | cons a t ih =>
    rw [List.cons_append, List.findSome?_cons, List.findSome?_cons]
    cases f a with
    | none => exact ih
    | some v => rfl

lemma scan_pyf_files_flatten (files : List (List String)) :
    scan_pyf_files files = (files.flatten).findSome? nonUserModuleNameOfLine := by
  induction files with
  | nil => rfl
  | cons f fs ih =>
    rw [scan_pyf_files, List.flatten_cons, findSome_append,
      get_f2py_modulename_findSome]
    cases (f.findSome? nonUserModuleNameOfLine) with
    | none => exact ih
    | some name => rfl

/-- Claim C9: module-name resolution.  An explicit module flag is used
verbatim; with native compilation requested the files are scanned in order
and the first `python module` declaration without the `__user__` marker
(taken across the concatenated lines of all signature files) supplies the
name, falling back to the literal `"unititled"`; without compilation and
without the flag, resolution yields no name.  The last conjunct exercises
the skip of a user-callback declaration on a concrete input. -/
theorem get_module_name_resolution :
    (∀ (m : String) (c : Bool) (fs : List (List String)),
      get_module_name (some m) c fs = some m) ∧
    (∀ fs : List (List String),
      get_module_name none true fs =
        some ((fs.flatten.findSome? nonUserModuleNameOfLine).getD "unititled")) ∧
    (∀ fs : List (List String), get_module_name none false fs = none) ∧
    get_module_name none true
      [["python module foo__user__bar"], ["  python module m1 ! comment"]] =
      some "m1" ∧
    get_module_name none true [["c no declaration here"]] = some "unititled" := by
  refine ⟨fun m c fs => rfl, ?_, fun fs => rfl, by decide, by decide⟩
  intro fs
  unfold get_module_name
  rw [scan_pyf_files_flatten]
  simp

/-! ### Parse-time processing: `check_dir`, `NPDLinkHelper`, `EnumAction`,
and the backend comparison in `process_args`

argparse consumes option tokens left to right; each option's `type`
conversion and action run as the option is encountered.  `-b` alias `--build-dir`
has `type=check_dir`, which calls `mkdir(parents=True, exist_ok=True)` —
a filesystem side effect during parsing.  `--backend` uses `EnumAction`,
which validates the raw value against the enum's values and stores the
*enum member*; but the flag's declared default is the plain string
`"distutils"`, and since `EnumAction.__init__` pops `type` before calling
`super()`, argparse applies no conversion to the string default — an
unsupplied `--backend` therefore remains a `str`.  `process_args` branches
on `args.c and args.backend == Backends.Distutils.value`, comparing the
stored value against a string; in Python an `Enum` member never equals a
`str`. -/

/-- The `Backends` enum of f2pyarg. -/
inductive Backends
  | Meson
  | Distutils
deriving DecidableEq, Repr

/-- `Backends.<member>.value`. -/
def Backends.value : Backends → String
  | .Meson => "meson"
  | .Distutils => "distutils"

/-- `EnumAction` choices: `tuple(e.value for e in enum_type)`. -/
def backend_choices : List String := [Backends.Meson.value, Backends.Distutils.value]

/-- The run-time value held in `args.backend`: either the raw string default
(argparse leaves a string default unconverted because `EnumAction` popped
`type`) or an enum member stored by `EnumAction.__call__`. -/
inductive BackendVal
  | strVal (s : String)
  | enumVal (b : Backends)
deriving DecidableEq, Repr

/-- Python `==` between the stored backend value and a string: two `str`s
compare by contents, an `Enum` member never equals a `str`. -/
def pyEqStr : BackendVal → String → Bool
  | .strVal s, t => s == t
  | .enumVal _, _ => false

/-- The allow-list `npd_link` exactly as written in the source, including
the two entries produced by missing commas (implicit string-literal
concatenation): `atlas_3_10_blas_threadslapack_atlas_3_10` and
`openblas_ilp64_lapackx11`. -/
def npd_link : List String :=
  ["atlas", "atlas_threads", "atlas_blas", "atlas_blas_threads",
   "lapack_atlas", "lapack_atlas_threads", "atlas_3_10",
   "atlas_3_10_threads", "atlas_3_10_blas",
   "atlas_3_10_blas_threadslapack_atlas_3_10",
   "lapack_atlas_3_10_threads", "flame", "mkl",
   "openblas", "openblas_lapack", "openblas_clapack", "blis",
   "lapack_mkl", "blas_mkl", "accelerate", "openblas64_",
   "openblas64__lapack", "openblas_ilp64", "openblas_ilp64_lapackx11",
   "fft_opt", "fftw", "fftw2", "fftw3", "dfftw", "sfftw",
   "fftw_threads", "dfftw_threads", "sfftw_threads", "djbfft", "blas",
   "lapack", "lapack_src", "blas_src", "numpy", "f2py", "Numeric",
   "numeric", "numarray", "numerix", "lapack_opt", "lapack_ilp64_opt",
   "lapack_ilp64_plain_opt", "lapack64__opt", "blas_opt",
   "blas_ilp64_opt", "blas_ilp64_plain_opt", "blas64__opt",
   "boost_python", "agg2", "wx", "gdk_pixbuf_xlib_2",
   "gdk-pixbuf-xlib-2.0", "gdk_pixbuf_2", "gdk-pixbuf-2.0", "gdk",
   "gdk_2", "gdk-2.0", "gdk_x11_2", "gdk-x11-2.0", "gtkp_x11_2",
   "gtk+-x11-2.0", "gtkp_2", "gtk+-2.0", "xft", "freetype2", "umfpack",
   "amd"]

/-- One option token of the subset of the grammar modelled here. -/
inductive ArgTok
  | buildDirOpt (dname : String)
  | backendOpt (value : String)
  | linkOpt (option_string : String)
deriving DecidableEq, Repr

/-- A fatal configuration error raised while parsing. -/
inductive ConfigErr
  | invalidChoice (value : String)
  | badLinkResource (value : String)
deriving DecidableEq, Repr

/-- Parse-time state: directories already created by `check_dir`, plus the
accumulated option values. -/
structure ParseState where
  created_dirs : List String
  build_dir : Option String
  backend : BackendVal
  link_resource : List String
deriving DecidableEq, Repr

/-- Initial state: no directory created, `--backend` default is the raw
string `"distutils"`. -/
def initParseState : ParseState :=
  { created_dirs := [], build_dir := none,
    backend := .strVal "distutils", link_resource := [] }

/-- `option_string.split("--link-")[1]` for a registered `--link-` option
string (which begins with that literal prefix): the remaining suffix. -/
def linkOptResource (option_string : String) : String :=
  ⟨option_string.toList.drop 7⟩

/-- Processing of one option token: `check_dir` creates the directory during
parsing (`if dname: mkdir(parents=True, exist_ok=True)`); `EnumAction`
rejects a value outside the choices and stores the enum member otherwise;
`NPDLinkHelper` appends an allow-listed resource and raises on any other. -/
def stepArg (st : ParseState) (t : ArgTok) : Except ConfigErr ParseState :=
  match t with
  | .buildDirOpt d =>
    if d == "" then .ok { st with build_dir := none }
    else .ok { st with created_dirs := st.created_dirs ++ [d],
                       build_dir := some d }
  | .backendOpt v =>
    if backend_choices.contains v then
      .ok { st with backend := .enumVal (if v == "meson" then .Meson else .Distutils) }
    else .error (.invalidChoice v)
  | .linkOpt opt =>
    let outvar := linkOptResource opt
    if npd_link.contains outvar then
      .ok { st with link_resource := st.link_resource ++ [outvar] }
    else .error (.badLinkResource outvar)

/-- Left-to-right option processing, keeping the state reached when a
configuration error aborts the parse. -/
def parse_args_run (st : ParseState) : List ArgTok → ParseState × Option ConfigErr
  | [] => (st, none)
  | t :: ts =>
    match stepArg st t with
    | .ok st2 => parse_args_run st2 ts
    | .error e => (st, some e)

/-- Top level: `main` calls `parse_known_args` and only on success reaches
`process_args` (dispatch); a parse-time error terminates the process with
whatever side effects parsing already performed. -/
inductive MainOutcome
  | configAborted (created_dirs : List String)
  | dispatched (st : ParseState)
deriving DecidableEq, Repr

/-- Outcome of a run of the front-end on the modelled option tokens. -/
def main_run (toks : List ArgTok) : MainOutcome :=
  match parse_args_run initParseState toks with
  | (st, some _) => .configAborted st.created_dirs
  | (st, none) => .dispatched st

/-- The dispatch condition of `process_args`:
`if(args.c and args.backend == Backends.Distutils.value)`. -/
def distutils_branch (c : Bool) (backend : BackendVal) : Bool :=
  c && pyEqStr backend Backends.Distutils.value

/-- Claim C3: with `-c`, the default (unsupplied) backend — the raw string
`"distutils"` — satisfies the comparison and dispatch takes the distutils
compilation branch; but an *explicit* `--backend distutils` stores the enum
member `Backends.Distutils`, the Python `==` against the string
`"distutils"` is `False`, and dispatch takes the wrapper-generation branch
instead. -/
theorem distutils_branch_explicit_backend_bypassed :
    (parse_args_run initParseState []).1.backend = .strVal "distutils" ∧
    distutils_branch true (parse_args_run initParseState []).1.backend = true ∧
    (parse_args_run initParseState [.backendOpt "distutils"]).1.backend =
      .enumVal .Distutils ∧
    distutils_branch true
      (parse_args_run initParseState [.backendOpt "distutils"]).1.backend =
      false := by
  decide

/-- Claim C5, counterexample: the token stream `-b build --backend bogus`
aborts with a configuration error, but the build directory `build` was
already created by `check_dir` during parsing — a file-system side effect
before the abort. -/
theorem parse_error_after_mkdir :
    (parse_args_run initParseState
        [.buildDirOpt "build", .backendOpt "bogus"]).2 =
      some (.invalidChoice "bogus") ∧
    (parse_args_run initParseState
        [.buildDirOpt "build", .backendOpt "bogus"]).1.created_dirs =
      ["build"] := by
  decide

/-- Claim C5, amended: a configuration error detected at parse time is fatal
and aborts before dispatch — `process_args` never runs, so no signature file
is overwritten and no compilation is started; however the build-directory
flag's `type=check_dir` conversion creates the named directory during
parsing itself, so directories named by `-b` options processed before the
offending flag already exist when the error aborts. -/
theorem parse_error_aborts_before_dispatch (toks : List ArgTok)
    (st : ParseState) (e : ConfigErr)
    (h : parse_args_run initParseState toks = (st, some e)) :
    main_run toks = .configAborted st.created_dirs ∧
    ∀ st2 : ParseState, main_run toks ≠ .dispatched st2 := by
  constructor
  · unfold main_run
    rw [h]
  · intro st2
    unfold main_run
    rw [h]
    intro hcontra
    exact MainOutcome.noConfusion hcontra

/-- Claim C5, witness: the abort-before-dispatch theorem applied at the
counterexample token stream. -/
theorem parse_error_aborts_before_dispatch_witness :
    main_run [.buildDirOpt "build", .backendOpt "bogus"] =
      .configAborted
        (parse_args_run initParseState
          [.buildDirOpt "build", .backendOpt "bogus"]).1.created_dirs ∧
    ∀ st2 : ParseState,
      main_run [.buildDirOpt "build", .backendOpt "bogus"] ≠ .dispatched st2 :=
  parse_error_aborts_before_dispatch
    [.buildDirOpt "build", .backendOpt "bogus"]
    (parse_args_run initParseState
      [.buildDirOpt "build", .backendOpt "bogus"]).1
    (.invalidChoice "bogus") (by decide)

/-! ### Fortran-compiler flags: `f2pyarg.get_fortran_compiler_flags`,
`get_fortran_library_flags` and the flag assembly of `service.compile_dist`

`get_fortran_compiler_flags` accumulates a local `fc_flags` list from the
build-helper options and has no `return` statement.  Two defects prevent it
from ever completing:

(a) the `--f77flags`, `--f90flags`, `--arch` and `--opt` options use
`ParseStringFlags`, whose `__call__` does
`items.extend(value.split(' ') for value in values)` — the destination is a
list of token *lists* — so when such a flag was supplied the helper
evaluates `" ".join(...)` on a list of lists, which raises `TypeError`
(join requires `str` items);

(b) the `--noopt` declaration passes the single name produced by implicit
string-literal concatenation of a stray `"""_summary_"""` docstring
fragment with `"--noopt"`.  That name does not start with an option prefix
character, so argparse registers it as a *positional* whose dest is the
literal concatenated string: the parsed namespace has no `noopt`
attribute, and the helper's `if(args.noopt):` raises `AttributeError`.

Whatever the options, the helper raises before falling off the end; the
statements from `if(args.noopt):` onward (the `--noopt`, `--noarch`,
`--debug` appends and the implicit `return None`) are unreachable.
`compile_dist` would append a `['config_fc'] + fc_flags` section only
`if fc_flags:`, but the distutils branch of `process_args` evaluates
`fc_flags = get_fortran_compiler_flags(args)` first, so the exception
propagates and `compile_dist` is never invoked. -/

/-- A Python exception escaping the helper: `TypeError` from `" ".join` on
a list of lists, or `AttributeError` from accessing the missing `noopt`
attribute. -/
inductive PyErr
  | typeErr
  | attributeErr
deriving DecidableEq, Repr

/-- `" ".join(x)` where `x` is the accumulated list of token lists: an empty
list joins to `""`; any element is itself a `list`, not a `str`, so a
non-empty argument raises `TypeError`. -/
def joinSpace : List (List String) → Except PyErr String
  | [] => .ok ""
  | _ :: _ => .error .typeErr

/-- The attributes of the parsed namespace consumed by
`get_fortran_compiler_flags` and `get_fortran_library_flags` (`nargs=1`
options are unwrapped to their single element; `ParseStringFlags`
destinations keep their list-of-lists shape; unsupplied is `none` or the
empty list, both falsy).  There is deliberately no `noopt` field: the
broken `--noopt` declaration (see the section comment) leaves no such
attribute on the namespace. -/
structure CompilerArgs where
  help_fcompiler : Bool
  f77exec : Option String
  f90exec : Option String
  f77flags : List (List String)
  f90flags : List (List String)
  arch : List (List String)
  opt : List (List String)
  noarch : Bool
  debug : Bool
  fcompiler : Option String
  compiler : Option String
deriving DecidableEq, Repr

/-- One `if(flag): fc_flags.append(f'--label={" ".join(flag)}')` step. -/
def appendJoinedFlag (fc : List String) (label : String)
    (flag : List (List String)) : Except PyErr (List String) :=
  match flag with
  | [] => .ok fc
  | x :: xs =>
    match joinSpace (x :: xs) with
    | .ok s => .ok (fc ++ [label ++ s])
    | .error e => .error e

/-- `f2pyarg.get_fortran_compiler_flags`: accumulate `fc_flags` from the
build-helper options up to the string-flag joins, then hit the
`if(args.noopt):` attribute access, which raises `AttributeError` because
the namespace has no `noopt` attribute; the remaining appends and the
implicit `return None` are unreachable. -/
def get_fortran_compiler_flags (a : CompilerArgs) :
    Except PyErr (Option (List String)) :=
  let fc0 := if a.help_fcompiler then ["--help-fcompiler"] else ([] : List String)
  let fc1 := match a.f77exec with
    | some p => fc0 ++ ["--f77exec=" ++ p]
    | none => fc0
  let fc2 := match a.f90exec with
    | some p => fc1 ++ ["--f90exec=" ++ p]
    | none => fc1
  match appendJoinedFlag fc2 "--f77flags=" a.f77flags with
  | .error e => .error e
  | .ok fc3 =>
    match appendJoinedFlag fc3 "--f90flags=" a.f90flags with
    | .error e => .error e
    | .ok fc4 =>
      match appendJoinedFlag fc4 "--arch=" a.arch with
      | .error e => .error e
      | .ok fc5 =>
        match appendJoinedFlag fc5 "--opt=" a.opt with
        | .error e => .error e
        | .ok fc6 =>
          let _ := fc6
          .error .attributeErr

/-- `f2pyarg.get_fortran_library_flags`. -/
def get_fortran_library_flags (a : CompilerArgs) : List String :=
  let flib0 := match a.fcompiler with
    | some f => ["--fcompiler=" ++ f]
    | none => ([] : List String)
  match a.compiler with
  | some c => flib0 ++ ["--compiler=" ++ c]
  | none => flib0

/-- The `f2py_build_flags` assembled by `service.compile_dist` before
`setup(...)` is invoked: quiet/verbose, the fixed build arguments, then a
`config_fc` section only when `fc_flags` is truthy and a `build_ext`
section only when `flib_flags` is truthy. -/
def compile_dist_build_flags (build_dir : String)
    (fc_flags : Option (List String)) (flib_flags : List String)
    (quiet_build : Bool) : List String :=
  let base := (if quiet_build then ["--quiet"] else ["--verbose"]) ++
    ["build", "--build-temp", build_dir, "--build-base", build_dir,
     "--build-platlib", ".", "--disable-optimization"]
  let withFc := match fc_flags with
    | some l => if l.isEmpty then base else base ++ ["config_fc"] ++ l
    | none => base
  if flib_flags.isEmpty then withFc else withFc ++ ["build_ext"] ++ flib_flags

/-- The slice of the distutils branch of `process_args` around the compile
step: `fc_flags = get_fortran_compiler_flags(args)` runs first and an
exception from it propagates, so `compile_dist` (modelled by the build-flag
list it would assemble) is reached only when the helper returns. -/
def distutils_compile_flags (a : CompilerArgs) (bd : String) (q : Bool) :
    Except PyErr (List String) :=
  match get_fortran_compiler_flags a with
  | .error e => .error e
  | .ok fc_flags =>
    .ok (compile_dist_build_flags bd fc_flags (get_fortran_library_flags a) q)

/-- The helper raises on every input: `TypeError` at the first supplied
string-flag join, otherwise `AttributeError` at `if(args.noopt):`. -/
lemma get_fortran_compiler_flags_isError (a : CompilerArgs) :
    ∃ e : PyErr, get_fortran_compiler_flags a = .error e := by
  unfold get_fortran_compiler_flags
  cases h77 : a.f77flags with
  | cons x xs => exact ⟨.typeErr, by simp [appendJoinedFlag, joinSpace]⟩
  | nil =>
    cases h90 : a.f90flags with
    | cons x xs => exact ⟨.typeErr, by simp [appendJoinedFlag, joinSpace]⟩
    | nil =>
      cases harch : a.arch with
      | cons x xs => exact ⟨.typeErr, by simp [appendJoinedFlag, joinSpace]⟩
      | nil =>
        cases hopt : a.opt with
        | cons x xs => exact ⟨.typeErr, by simp [appendJoinedFlag, joinSpace]⟩
        | nil => exact ⟨.attributeErr, by simp [appendJoinedFlag]⟩

/-- Claim C7, counterexample: the helper never returns `None`.  With
`--f77flags "-O"` supplied it raises `TypeError` while joining the
list-of-token-lists destination; with none of the four string flags
supplied it reaches `if(args.noopt):` and raises `AttributeError`, because
the broken `--noopt` declaration left no `noopt` attribute on the parsed
namespace. -/
theorem get_fortran_compiler_flags_raises :
    get_fortran_compiler_flags
      { help_fcompiler := false, f77exec := none, f90exec := none,
        f77flags := [["-O"]], f90flags := [], arch := [], opt := [],
        noarch := false, debug := false,
        fcompiler := none, compiler := none } = .error .typeErr ∧
    get_fortran_compiler_flags
      { help_fcompiler := false, f77exec := none, f90exec := none,
        f77flags := [], f90flags := [], arch := [], opt := [],
        noarch := false, debug := false,
        fcompiler := none, compiler := none } = .error .attributeErr ∧
    get_fortran_compiler_flags
      { help_fcompiler := false, f77exec := none, f90exec := none,
        f77flags := [], f90flags := [], arch := [], opt := [],
        noarch := false, debug := false,
        fcompiler := none, compiler := none } ≠ .ok none := by
  refine ⟨rfl, rfl, ?_⟩
  intro h
  exact Except.noConfusion h

/-- Claim C7, amended: the helper never returns at all.  If one of the
string-flag options (`--f77flags`, `--f90flags`, `--arch`, `--opt`) was
supplied it raises `TypeError` at the corresponding join; otherwise it
raises `AttributeError` at `if(args.noopt):`, the `--noopt` declaration
having been swallowed into a positional by implicit string concatenation.
Hence it never returns `None` (nor a list), and on the distutils
compilation path the exception propagates before `compile_dist` is
invoked, so the compiler-customization flags are never forwarded to any
build invocation — no build invocation occurs. -/
theorem get_fortran_compiler_flags_always_raises (a : CompilerArgs) :
    (a.f77flags = [] → a.f90flags = [] → a.arch = [] → a.opt = [] →
      get_fortran_compiler_flags a = .error .attributeErr) ∧
    (∀ r : Option (List String), get_fortran_compiler_flags a ≠ .ok r) ∧
    (∀ (bd : String) (q : Bool) (flags : List String),
      distutils_compile_flags a bd q ≠ .ok flags) := by
  obtain ⟨e, he⟩ := get_fortran_compiler_flags_isError a
  refine ⟨?_, ?_, ?_⟩
  · intro h77 h90 harch hopt
    unfold get_fortran_compiler_flags
    rw [h77, h90, harch, hopt]
    simp [appendJoinedFlag]
  · intro r h
    rw [he] at h
    exact Except.noConfusion h
  · intro bd q flags h
    unfold distutils_compile_flags at h
    rw [he] at h
    exact Except.noConfusion h

/-- Claim C7, witness: the amended theorem at a concrete argument record
with several non-string flags set and no string flag supplied. -/
theorem get_fortran_compiler_flags_always_raises_witness :
    get_fortran_compiler_flags
      { help_fcompiler := true, f77exec := some "gfortran", f90exec := none,
        f77flags := [], f90flags := [], arch := [], opt := [],
        noarch := true, debug := true,
        fcompiler := some "gnu95", compiler := none } = .error .attributeErr :=
  (get_fortran_compiler_flags_always_raises
    { help_fcompiler := true, f77exec := some "gfortran", f90exec := none,
      f77flags := [], f90flags := [], arch := [], opt := [],
      noarch := true, debug := true,
      fcompiler := some "gnu95", compiler := none }).1 rfl rfl rfl rfl

end F2pySpec
